import Mathlib

/-!
Shallow embedding of the he3pp analysis macros (Common.h, Signal.cc,
Systematics.cc, FitModules.cxx, getTriggerEfficiency.cc, analyseData.cc).
Machine floating-point arithmetic is modelled over the rationals; the
square-root calls of the source are kept abstract (a function parameter),
so every branch condition and every argument passed to the square root is
represented exactly.
-/

namespace He3pp

/-- Pt binning from src/src/Common.h line 58: kPtBins = {1.,1.5,2.0,2.5,3.0,4.0,5.0}. -/
def kPtBinsList : List ℚ := [1, 3/2, 2, 5/2, 3, 4, 5]

/-- Number of pt bins, src/src/Common.h line 57. -/
def kNPtBins : ℕ := 6

/-- Fit range in pt, src/src/Common.h line 69: kPtRange = {1.4, 7}. -/
def kPtRangeLo : ℚ := 7/5

/-- Upper end of the pt fit range, src/src/Common.h line 69. -/
def kPtRangeHi : ℚ := 7

/-- Upper pt limit for the TPC analysis, src/src/Common.h line 67. -/
def kTPCmaxPt : ℚ := 7

/-- Centrality dependent pt limit, src/src/Common.h line 64: kCentPtLimits = {7}. -/
def kCentPtLimit : ℚ := 7

/-- Bin edge access on the pt axis (1-based bin index as in ROOT):
the lower edge of bin iB is kPtBinsList[iB - 1]. -/
def ptBinLowEdge (iB : ℕ) : ℚ := kPtBinsList.getD (iB - 1) 0

/-- ROOT TAxis GetBinCenter for the kPtBins axis (1-based bin index):
midpoint of the two edges of the bin. -/
def ptBinCenter (iB : ℕ) : ℚ := (kPtBinsList.getD (iB - 1) 0 + kPtBinsList.getD iB 0) / 2

/-- ROOT TAxis FindBin on the variable-width kPtBins axis: the returned
bin number is the count of edges that are at most x (0 = underflow,
kNPtBins + 1 = overflow). -/
def ptFindBin (x : ℚ) : ℕ := kPtBinsList.countP (fun e => decide (e ≤ x))

/-- DCAxy cut width, src/src/Common.h lines 101-105. -/
def DCAxyCut (pt nsigma : ℚ) : ℚ :=
  let invPt := 1 / pt
  (762783/1000000000 + 459326/100000000 * invPt + 689163/100000000 * invPt * invPt) * nsigma

/-- DCAxy n-sigma transform, src/src/Common.h lines 106-108. -/
def nSigmaDCAxy (pt dcaxy : ℚ) : ℚ := dcaxy / DCAxyCut pt 1

/-- DCAz cut width, src/src/Common.h lines 110-114. -/
def DCAzCut (pt nsigma : ℚ) : ℚ :=
  let invPt := 1 / pt
  (5/10000 + 873690/100000000 * invPt + 962329/1000000000 * invPt * invPt) * nsigma

/-- DCAz n-sigma transform, src/src/Common.h lines 116-118. -/
def nSigmaDCAz (pt dcaz : ℚ) : ℚ := dcaz / DCAzCut pt 1

/-- The tofMass column of defineColumnsForData, src/src/Common.h line 124
(the identical expression appears in src/analyseData.cc line 33):
fBeta < 1.e-3 ? 1.e9 : fBeta >= 1. ? 0 :
fTPCInnerParam * 2 * sqrt(1/(fBeta*fBeta) - 1).
The square root is kept abstract as the parameter sq. -/
def tofMass (sq : ℚ → ℚ) (fTPCInnerParam fBeta : ℚ) : ℚ :=
  if fBeta < 1/1000 then 1000000000
  else if fBeta ≥ 1 then 0
  else fTPCInnerParam * 2 * sq (1 / (fBeta * fBeta) - 1)

/-- Argument handed to the square root in the third branch of tofMass. -/
def tofMassSqrtArg (fBeta : ℚ) : ℚ := 1 / (fBeta * fBeta) - 1

/-- Signal.cc line 217: the per-pt-bin loop of the signal extraction skips a
bin (continue) when its center is below kPtRange[0] or above kPtRange[1].
iB is the 0-based loop index; the histogram bin is iB + 1. -/
def ptBinInFitRange (iB : ℕ) : Bool :=
  !(decide (ptBinCenter (iB + 1) < kPtRangeLo) || decide (ptBinCenter (iB + 1) > kPtRangeHi))

/-- Signal.cc lines 215-247: the TOF invariant-mass distribution of 0-based pt
bin iB is fitted exactly when the bin passes the kPtRange guard (line 217) and
its center does not exceed kCentPtLimits[0] (line 225). -/
def tofBinFitted (iB : ℕ) : Bool :=
  ptBinInFitRange iB && !(decide (ptBinCenter (iB + 1) > kCentPtLimit))

/-- Signal.cc lines 309-331: the TPC n-sigma distribution of 0-based pt bin iB
is fitted exactly when the bin passes the kPtRange guard (line 217) and its
center is below kTPCmaxPt (line 311). -/
def tpcBinFitted (iB : ℕ) : Bool :=
  ptBinInFitRange iB && decide (ptBinCenter (iB + 1) < kTPCmaxPt)

/-- A ROOT TH1 with a uniform axis: nbins bins between xmin and xmax, bin i
(1-based) holding contents[i-1]. Under- and overflow are not stored: getD
returns 0 outside the range, as ROOT does for a freshly projected histogram
whose flow bins are empty. -/
structure Hist1 where
  xmin : ℚ
  xmax : ℚ
  nbins : ℕ
  contents : List ℚ

/-- Width of one bin of the uniform axis. -/
def Hist1.binWidth (h : Hist1) : ℚ := (h.xmax - h.xmin) / h.nbins

/-- ROOT TAxis FindBin on a uniform axis: 0 for underflow, nbins + 1 for
overflow (x equal to xmax is overflow), otherwise 1 + floor((x - xmin)/width). -/
def Hist1.FindBin (h : Hist1) (x : ℚ) : ℕ :=
  if x < h.xmin then 0
  else if h.xmax ≤ x then h.nbins + 1
  else (⌊(x - h.xmin) / h.binWidth⌋).toNat + 1

/-- ROOT TH1 GetBinLowEdge on a uniform axis (1-based bin index). -/
def Hist1.GetBinLowEdge (h : Hist1) (i : ℕ) : ℚ := h.xmin + ((i : ℚ) - 1) * h.binWidth

/-- Content of bin i (1-based); the unstored flow bins (i = 0 and
i = nbins + 1) are empty. -/
def Hist1.content (h : Hist1) (i : ℕ) : ℚ :=
  if i = 0 ∨ h.nbins < i then 0 else h.contents.getD (i - 1) 0

/-- ROOT TH1 Integral(a, b): the sum of the contents of bins a through b
inclusive (0 when b < a). -/
def Hist1.Integral (h : Hist1) (a b : ℕ) : ℚ :=
  ((List.range (b + 1 - a)).map (fun k => h.content (a + k))).sum

/-- The RooFit outcomes entering the per-pt-bin TOF treatment of Signal.cc:
the signal-model parameters after fExpExpTailGaus.FitData (lines 238-247), the
sideband background-model quantities after fBkg.FitData (lines 264-268), and
the projected invariant-mass histogram (line 229). The fit outcomes are free
parameters of the embedding; the code downstream of the fits is modelled
exactly. -/
structure TOFBinFit where
  dat : Hist1
  mu : ℚ
  sigma : ℚ
  sigCountsVal : ℚ
  sigCountsErr : ℚ
  signalChi2 : ℚ
  bkgNormInt : ℚ
  bkgCounts : ℚ
  bkgChi2 : ℚ

/-- The histogram cells written by the per-pt-bin TOF treatment for 0-based bin
index iB: the hRawCounts cell, the hRawCountsBinCounting cell, and the
hChiSquare cell (content 0 and set = false when the code never writes it). -/
structure TOFBinOut where
  rawCountsVal : ℚ
  rawCountsErr : ℚ
  binCountVal : ℚ
  binCountErr : ℚ
  chiSquareVal : ℚ
  chiSquareSet : Bool

/-- Per-pt-bin TOF treatment of Signal.cc lines 238-307 for 0-based bin iB,
with n_sigma_vec = {3.0} and v_shift empty (line 159-160): hRawCounts takes the
fitted signal-yield value and error (lines 246-247); the bin-counting window is
[mu - 3 sigma, mu + (3+2) sigma] (lines 253-254) widened to bin edges via
FindBin (lines 255-258); the background integral and the hChiSquare write
happen only when iB > 8 (lines 268-273); the bin-counting content is the total
integral minus the background integral and its error the square root of their
sum (lines 274-280). sq abstracts TMath Sqrt. -/
def processTOFbin (sq : ℚ → ℚ) (iB : ℕ) (f : TOFBinFit) : TOFBinOut :=
  let leftSigma := f.mu - 3 * f.sigma
  let rightSigma := f.mu + (3 + 2) * f.sigma
  let leftEdgeBin := f.dat.FindBin leftSigma
  let rightEdgeBin := f.dat.FindBin rightSigma
  let bkgIntegral := if 8 < iB then f.bkgNormInt * f.bkgCounts else 0
  let totIntegral := f.dat.Integral leftEdgeBin rightEdgeBin
  let sigIntegral := totIntegral - bkgIntegral
  let sigErr := sq (totIntegral + bkgIntegral)
  { rawCountsVal := f.sigCountsVal
    rawCountsErr := f.sigCountsErr
    binCountVal := sigIntegral
    binCountErr := sigErr
    chiSquareVal := if 8 < iB then f.bkgChi2 else 0
    chiSquareSet := decide (8 < iB) }

/-- Relative deviation filled into the systematics TH2, Systematics.cc
lines 107 and 111: (value - defaultValue) / defaultValue. -/
def relDev (value defaultValue : ℚ) : ℚ := (value - defaultValue) / defaultValue

/-- ROOT TAxis FindBin on the uniform 50-bin y axis [-0.5, 0.5] of the
systematics TH2 (Systematics.cc lines 33-34), 1-based; none for a fill landing
in a flow bin, which the projection statistics exclude. -/
def systYbin (y : ℚ) : Option ℕ :=
  if y < -(1/2) then none
  else if (1/2) ≤ y then none
  else some ((⌊(y + 1/2) * 50⌋).toNat + 1)

/-- Center of 1-based bin j of the 50-bin deviation axis. -/
def systYcenter (j : ℕ) : ℚ := -(1/2) + ((j : ℚ) - 1/2) / 50

/-- One TH2 Fill reduced to its bin coordinates: x bin on the kPtBins axis via
FindBin, y bin on the 50-bin deviation axis. -/
def systFillBins (pt dev : ℚ) : ℕ × Option ℕ := (ptFindBin pt, systYbin dev)

/-- The fills received by the systTPC histogram of one species, Systematics.cc
lines 100-108: 1-based pt bins iB = 1..kNPtBins, and for each the three TPC
fit-function variants iTPC = 0..2; the x position is the bin center of the
data histogram (kPtBins axis, line 102) and the y value the relative deviation
of the efficiency-corrected variant yield v iTPC iB from the default, which is
the clone of variant 1 taken at lines 92-96. -/
def systTPCfills (v : ℕ → ℕ → ℚ) : List (ℕ × Option ℕ) :=
  (List.range kNPtBins).flatMap (fun k =>
    (List.range 3).map (fun iT =>
      systFillBins (ptBinCenter (k + 1)) (relDev (v iT (k + 1)) (v 1 (k + 1)))))

/-- The fills received by the systTOF histogram of one species, Systematics.cc
lines 100-113: the two TOF extraction variants iTOF = 0..1 per pt bin, the
default being the clone of variant 0 taken at lines 83-84. -/
def systTOFfills (w : ℕ → ℕ → ℚ) : List (ℕ × Option ℕ) :=
  (List.range kNPtBins).flatMap (fun k =>
    (List.range 2).map (fun iTOF =>
      systFillBins (ptBinCenter (k + 1)) (relDev (w iTOF (k + 1)) (w 0 (k + 1)))))

/-- Bin contents of the y projection of the TH2 at x bin iB (ProjectionY at
a single x bin, Systematics.cc lines 123-124): the count of fills whose x bin
is iB and whose y bin is j. -/
def projYcounts (fills : List (ℕ × Option ℕ)) (iB : ℕ) : ℕ → ℕ :=
  fun j => (((fills.filter (fun e => e.1 == iB)).map Prod.snd).filter (fun o => o == some j)).length

/-- Number of in-range entries of a 50-bin y histogram. -/
def binnedN (c : ℕ → ℕ) : ℕ := ((List.range 50).map (fun k => c (k + 1))).sum

/-- Sum of entries weighted by bin center. -/
def binnedSum (c : ℕ → ℕ) : ℚ :=
  ((List.range 50).map (fun k => (c (k + 1) : ℚ) * systYcenter (k + 1))).sum

/-- Sum of entries weighted by squared bin center. -/
def binnedSumSq (c : ℕ → ℕ) : ℚ :=
  ((List.range 50).map (fun k => (c (k + 1) : ℚ) * systYcenter (k + 1) * systYcenter (k + 1))).sum

/-- The squared ROOT GetRMS of a binned histogram: the statistics are computed
from the in-range bins, each entry sitting at its bin center (ROOT TH1
GetStats), and the standard deviation is the square root of the absolute
difference between the mean square and the squared mean (ROOT TH1 GetStdDev);
zero when the histogram is empty. -/
def binnedVariance (c : ℕ → ℕ) : ℚ :=
  let n : ℚ := binnedN c
  if n = 0 then 0
  else |binnedSumSq c / n - (binnedSum c / n) * (binnedSum c / n)|

/-- Content of one bin of the aggregated-systematics histogram, Systematics.cc
lines 122-125: the GetRMS of the single-x-bin y projection of the systematics
TH2, the square root abstracted as sq. -/
def hSystContent (sq : ℚ → ℚ) (fills : List (ℕ × Option ℕ)) (iB : ℕ) : ℚ :=
  sq (binnedVariance (projYcounts fills iB))

/-- The 50-bin y histogram obtained by binning a list of deviation values
directly. -/
def deviationCounts (devs : List ℚ) : ℕ → ℕ :=
  fun j => ((devs.map systYbin).filter (fun o => o == some j)).length

/-- The RMS (ROOT binned standard deviation) of a list of deviation values,
the square root abstracted as sq. -/
def rmsOfDeviations (sq : ℚ → ℚ) (devs : List ℚ) : ℚ :=
  sq (binnedVariance (deviationCounts devs))

/-- The four spectrum cells written for one pt bin and one detector by
Systematics.cc: the stat histogram content and error and the syst histogram
content and error. -/
structure SpectrumBin where
  statVal : ℚ
  statErr : ℚ
  systVal : ℚ
  systErr : ℚ

/-- Per-bin spectrum normalization of Systematics.cc lines 209-245 for one
detector (the TPC and TOF branches are textually identical): when the
efficiency is at least 1e-2 the content is yield/eff, the stat error
statError/eff and the syst error systRel * yield / eff (lines 218-222 and
229-233), otherwise all four cells are set to 0 (lines 223-227 and 234-239);
afterwards Scale(1./norm, "width") (lines 242-245) multiplies every content
and error by 1/norm and divides it by the bin width. -/
def normalizeSpectrumBin (yield statError eff systRel norm binW : ℚ) : SpectrumBin :=
  let pre : SpectrumBin :=
    if eff ≥ 1/100 then
      { statVal := yield / eff
        statErr := statError / eff
        systVal := yield / eff
        systErr := systRel * yield / eff }
    else
      { statVal := 0, statErr := 0, systVal := 0, systErr := 0 }
  { statVal := pre.statVal * (1 / norm) / binW
    statErr := pre.statErr * (1 / norm) / binW
    systVal := pre.systVal * (1 / norm) / binW
    systErr := pre.systErr * (1 / norm) / binW }

/-- The expression inside std::max(0.0, ...) of getTriggerEfficiency.cc
lines 85-88, with ratioSS = sampled / skimmed. -/
def triggerEffErrArg (skimmed sampled errSkimmed errSampled : ℚ) : ℚ :=
  let ratioSS := sampled / skimmed
  max 0
    ((errSampled * errSampled) / (skimmed * skimmed) +
     (ratioSS * ratioSS * errSkimmed * errSkimmed) / (skimmed * skimmed) -
     2 * ratioSS * errSkimmed * errSkimmed / (skimmed * skimmed))

/-- One bin of the trigger-efficiency histogram, getTriggerEfficiency.cc
lines 74-92: the histogram was Reset (line 72), and a bin is written only when
the skimmed content is strictly positive (line 80), with content
sampled/skimmed and error the square root (abstracted as sq) of the clamped
expression of lines 85-88; otherwise it keeps the reset values (0, 0). -/
def triggerEffBin (sq : ℚ → ℚ) (skimmed sampled errSkimmed errSampled : ℚ) : ℚ × ℚ :=
  if 0 < skimmed then
    (sampled / skimmed, sq (triggerEffErrArg skimmed sampled errSkimmed errSampled))
  else (0, 0)

/-- Handling of a by-name histogram lookup that returns a null pointer. -/
inductive OnMissing
  | logAndContinue
  | silentContinue
  | abortRun
  | errorReturn
deriving DecidableEq

/-- A by-name histogram lookup site in an input file, with the behaviour of the
surrounding code when the lookup returns a null pointer. -/
structure LookupSite where
  sourceFile : String
  histName : String
  onMissing : OnMissing
deriving DecidableEq

/-- The histogram lookup sites of the two macros named by the spec.
Signal.cc lines 136-139 fetch four histograms with no null check and no
message; Systematics.cc lines 62-69 and 77-79 and 89-91 print a Missing
message on a null result and keep going; Systematics.cc lines 14-16 and 28
fetch normalisation and correction histograms with no null check. No site
aborts or returns an error. -/
def lookupSites : List LookupSite :=
  [⟨"Signal.cc", "fATOFsignal", OnMissing.silentContinue⟩,
   ⟨"Signal.cc", "fMTOFsignal", OnMissing.silentContinue⟩,
   ⟨"Signal.cc", "fATPCcounts", OnMissing.silentContinue⟩,
   ⟨"Signal.cc", "fMTPCcounts", OnMissing.silentContinue⟩,
   ⟨"Systematics.cc", "effTPC", OnMissing.logAndContinue⟩,
   ⟨"Systematics.cc", "effTOF", OnMissing.logAndContinue⟩,
   ⟨"Systematics.cc", "hRawCounts GausExp", OnMissing.logAndContinue⟩,
   ⟨"Systematics.cc", "hTPConly", OnMissing.logAndContinue⟩,
   ⟨"Systematics.cc", "hCounterTVX", OnMissing.silentContinue⟩,
   ⟨"Systematics.cc", "hColCounterAcc", OnMissing.silentContinue⟩,
   ⟨"Systematics.cc", "hRecVtxZData", OnMissing.silentContinue⟩,
   ⟨"Systematics.cc", "rapRatio", OnMissing.silentContinue⟩]

/-- FitModule FitData, src/src/FitModules.cxx line 27:
for (int i = 2; i--;) res = mTemplate->fitTo(data, ...).
The C loop tests i for truth, then decrements it, then runs the body when the
test held. The fitting engine is abstracted as a state transformer fitTo; the
accumulator counts the calls into it. fuel bounds the recursion. -/
def fitDataFitLoop {σ : Type} (fitTo : σ → σ) (fuel : ℕ) (i : ℤ) (s : σ) (calls : ℕ) : σ × ℕ :=
  match fuel with
  | 0 => (s, calls)
  | Nat.succ f => if i = 0 then (s, calls) else fitDataFitLoop fitTo f (i - 1) (fitTo s) (calls + 1)

/-- The fitting portion of FitModule FitData (src/src/FitModules.cxx
lines 20-44): the loop starts at i = 2; the pair holds the fit-engine state
when the loop ends and the number of fitTo calls performed. -/
def fitDataModel {σ : Type} (fitTo : σ → σ) (s : σ) : σ × ℕ :=
  fitDataFitLoop fitTo 4 2 s 0

end He3pp

namespace He3pp

/-- C9: for every pt > 0 and every n, the DCA n-sigma transforms invert the
DCA cut-width functions: nSigmaDCAz pt (DCAzCut pt n) = n and
nSigmaDCAxy pt (DCAxyCut pt n) = n. -/
theorem dca_nsigma_inverts_cut (pt n : ℚ) (h : 0 < pt) :
    nSigmaDCAz pt (DCAzCut pt n) = n ∧ nSigmaDCAxy pt (DCAxyCut pt n) = n := by
  have hne : pt ≠ 0 := ne_of_gt h
  have hinv : 0 < 1 / pt := by positivity
  constructor
  · have hpoly : (0:ℚ) < 5/10000 + 873690/100000000 * (1/pt) + 962329/1000000000 * (1/pt) * (1/pt) := by
      positivity
    unfold nSigmaDCAz DCAzCut
    field_simp
  · have hpoly : (0:ℚ) < 762783/1000000000 + 459326/100000000 * (1/pt) + 689163/100000000 * (1/pt) * (1/pt) := by
      positivity
    unfold nSigmaDCAxy DCAxyCut
    field_simp

/-- Witness for dca_nsigma_inverts_cut at pt = 2, n = 3. -/
theorem dca_nsigma_inverts_cut_witness :
    nSigmaDCAz 2 (DCAzCut 2 3) = 3 ∧ nSigmaDCAxy 2 (DCAxyCut 2 3) = 3 :=
  dca_nsigma_inverts_cut 2 3 (by norm_num)

/-- C2 counterexample: the claim that no kinematic bin is skipped is false.
The first pt bin (0-based index 0, center 1.25 GeV) fails the kPtRange guard of
Signal.cc line 217, so neither its TOF distribution nor its TPC distribution is
fitted. -/
theorem signal_first_bin_skipped :
    tofBinFitted 0 = false ∧ tpcBinFitted 0 = false ∧
    ¬ (∀ iB, iB < kNPtBins → tofBinFitted iB = true ∧ tpcBinFitted iB = true) := by
  have h0 : tofBinFitted 0 = false := by
    norm_num [tofBinFitted, ptBinInFitRange, ptBinCenter, kPtBinsList,
      kPtRangeLo, kPtRangeHi, kCentPtLimit]
  have h1 : tpcBinFitted 0 = false := by
    norm_num [tpcBinFitted, ptBinInFitRange, ptBinCenter, kPtBinsList,
      kPtRangeLo, kPtRangeHi, kTPCmaxPt]
  refine ⟨h0, h1, fun h => ?_⟩
  have := (h 0 (by norm_num [kNPtBins])).1
  rw [h0] at this
  exact Bool.false_ne_true this

/-- C2 amended: a pt bin is fitted (both in the TOF and in the TPC analysis)
exactly when its bin center lies inside kPtRange = [1.4, 7]; with the six-bin
binning of Common.h this holds for every bin except the first. -/
theorem signal_fit_exactly_in_range (iB : ℕ) (h : iB < kNPtBins) :
    (tofBinFitted iB = true ↔ kPtRangeLo ≤ ptBinCenter (iB + 1)) ∧
    (tpcBinFitted iB = true ↔ kPtRangeLo ≤ ptBinCenter (iB + 1)) ∧
    (tofBinFitted iB = true ↔ 1 ≤ iB) := by
  rw [kNPtBins] at h
  interval_cases iB <;>
    norm_num [tofBinFitted, tpcBinFitted, ptBinInFitRange, ptBinCenter, kPtBinsList,
      kPtRangeLo, kPtRangeHi, kCentPtLimit, kTPCmaxPt]

/-- Witness for signal_fit_exactly_in_range at iB = 2. -/
theorem signal_fit_exactly_in_range_witness :
    tofBinFitted 2 = true ∧ tpcBinFitted 2 = true :=
  ⟨((signal_fit_exactly_in_range 2 (by norm_num [kNPtBins])).2.2).mpr (by norm_num),
   ((signal_fit_exactly_in_range 2 (by norm_num [kNPtBins])).2.1).mpr
     (((signal_fit_exactly_in_range 2 (by norm_num [kNPtBins])).1).mp
       (((signal_fit_exactly_in_range 2 (by norm_num [kNPtBins])).2.2).mpr (by norm_num)))⟩

/-- C8: the tofMass column derivation is total. If fBeta < 0.001 the result is
1e9, if fBeta >= 1 the result is 0, otherwise the argument of the square root,
1/(fBeta*fBeta) - 1, is strictly positive and fBeta is nonzero, so the column
value is fTPCInnerParam * 2 * sqrt(1/(fBeta*fBeta) - 1). -/
theorem tofMass_total (sq : ℚ → ℚ) (p beta : ℚ) :
    (beta < 1/1000 → tofMass sq p beta = 1000000000) ∧
    (1 ≤ beta → tofMass sq p beta = 0) ∧
    (¬ beta < 1/1000 → ¬ beta ≥ 1 →
      0 < tofMassSqrtArg beta ∧ beta ≠ 0 ∧
      tofMass sq p beta = p * 2 * sq (tofMassSqrtArg beta)) := by
  refine ⟨fun h => ?_, fun h => ?_, fun h1 h2 => ?_⟩
  · unfold tofMass
    rw [if_pos h]
  · have h1000 : (1:ℚ)/1000 ≤ 1 := by norm_num
    have hlt : ¬ beta < 1/1000 := not_lt.mpr (h1000.trans h)
    unfold tofMass
    rw [if_neg hlt, if_pos h]
  · have hge : (1:ℚ)/1000 ≤ beta := not_lt.mp h1
    have hlt1 : beta < 1 := not_le.mp h2
    have hbpos : 0 < beta := lt_of_lt_of_le (by norm_num) hge
    have hsq : 0 < beta * beta := mul_pos hbpos hbpos
    have hsqlt : beta * beta < 1 := by nlinarith
    have harg : 0 < tofMassSqrtArg beta := by
      unfold tofMassSqrtArg
      have hone : 1 < 1 / (beta * beta) := by
        rw [lt_div_iff₀ hsq]
        linarith
      linarith
    refine ⟨harg, ne_of_gt hbpos, ?_⟩
    unfold tofMass tofMassSqrtArg
    rw [if_neg h1, if_neg h2]

/-- Witness for tofMass_total at fBeta = 1/2, fTPCInnerParam = 1, sq constant 3. -/
theorem tofMass_total_witness :
    0 < tofMassSqrtArg (1/2) ∧ (1/2 : ℚ) ≠ 0 ∧
    tofMass (fun _ => 3) 1 (1/2) = 1 * 2 * 3 :=
  (tofMass_total (fun _ => 3) 1 (1/2)).2.2 (by norm_num) (by norm_num)

/-- C1 counterexample: it is not the case that every lookup site logs a message
on a missing histogram: the fATOFsignal lookup of Signal.cc line 136 has no
null check and silently continues with the null pointer. -/
theorem missing_histogram_not_always_logged :
    ¬ (∀ s ∈ lookupSites, s.onMissing = OnMissing.logAndContinue) := by
  intro h
  have := h ⟨"Signal.cc", "fATOFsignal", OnMissing.silentContinue⟩ (by decide)
  simp at this

/-- C1 amended: on a missing histogram every lookup site either logs to
standard output and continues or silently continues with the null pointer;
no site aborts and none returns a recoverable error. -/
theorem missing_histogram_never_aborts (s : LookupSite) (h : s ∈ lookupSites) :
    (s.onMissing = OnMissing.logAndContinue ∨ s.onMissing = OnMissing.silentContinue) ∧
    s.onMissing ≠ OnMissing.abortRun ∧ s.onMissing ≠ OnMissing.errorReturn := by
  fin_cases h <;> simp

/-- Witness for missing_histogram_never_aborts at the effTPC lookup site. -/
theorem missing_histogram_never_aborts_witness :
    ((⟨"Systematics.cc", "effTPC", OnMissing.logAndContinue⟩ : LookupSite).onMissing
        = OnMissing.logAndContinue ∨
      (⟨"Systematics.cc", "effTPC", OnMissing.logAndContinue⟩ : LookupSite).onMissing
        = OnMissing.silentContinue) ∧
    (⟨"Systematics.cc", "effTPC", OnMissing.logAndContinue⟩ : LookupSite).onMissing
        ≠ OnMissing.abortRun ∧
    (⟨"Systematics.cc", "effTPC", OnMissing.logAndContinue⟩ : LookupSite).onMissing
        ≠ OnMissing.errorReturn :=
  missing_histogram_never_aborts _ (by decide)

/-- C3 counterexample: FitData does not make exactly one call into the fitting
engine: on any input the loop for (int i = 2; i--;) runs fitTo twice, here
instanced with the successor function on naturals starting from 0. -/
theorem fitData_not_single_fit :
    ¬ ((fitDataModel (fun n : ℕ => n + 1) 0).2 = 1) := by decide

/-- C3 amended: every invocation of FitData performs exactly two calls into the
fitting engine and returns the state resulting from the second call. -/
theorem fitData_two_fits {σ : Type} (fitTo : σ → σ) (s : σ) :
    fitDataModel fitTo s = (fitTo (fitTo s), 2) := rfl

/-- C4: for every fitted pt bin the bin-counting estimate equals the histogram
integral between the bin edges enclosing [mu - 3 sigma, mu + 5 sigma] (the bins
found by FindBin at the two window ends) minus the sideband background integral
over that range, the background integral being zero for 0-based pt-bin index at
most 8; the stored error is the square root of the total integral plus the
background integral. -/
theorem binCounting_formula (sq : ℚ → ℚ) (iB : ℕ) (f : TOFBinFit) :
    (processTOFbin sq iB f).binCountVal =
      f.dat.Integral (f.dat.FindBin (f.mu - 3 * f.sigma)) (f.dat.FindBin (f.mu + 5 * f.sigma))
        - (if iB ≤ 8 then 0 else f.bkgNormInt * f.bkgCounts) ∧
    (processTOFbin sq iB f).binCountErr =
      sq (f.dat.Integral (f.dat.FindBin (f.mu - 3 * f.sigma)) (f.dat.FindBin (f.mu + 5 * f.sigma))
        + (if iB ≤ 8 then 0 else f.bkgNormInt * f.bkgCounts)) := by
  have h5 : f.mu + (3 + 2) * f.sigma = f.mu + 5 * f.sigma := by ring
  by_cases h : 8 < iB
  · have hnot : ¬ iB ≤ 8 := not_le.mpr h
    simp [processTOFbin, h5, h, hnot]
  · have hle : iB ≤ 8 := not_lt.mp h
    simp [processTOFbin, h5, h, hle]

/-- A concrete instance of the per-bin fit outcomes used to exhibit the
chi-square divergence: the signal fit has chi-square 1 per NDF, the sideband
fit chi-square 3. -/
def cexTOFfit : TOFBinFit :=
  { dat := ⟨-9/10, 11/10, 100, []⟩
    mu := 0
    sigma := 1/10
    sigCountsVal := 5
    sigCountsErr := 2
    signalChi2 := 1
    bkgNormInt := 0
    bkgCounts := 0
    bkgChi2 := 3 }

/-- C7 counterexample: pt bin 2 (0-based) is fitted, yet the per-bin treatment
never writes its hChiSquare cell (the write is guarded by iB > 8, Signal.cc
line 269), so the recorded chi-square stays 0 and differs from the bin fit
chi-square per NDF (1 in this instance). -/
theorem chiSquare_not_recorded :
    tofBinFitted 2 = true ∧
    (processTOFbin id 2 cexTOFfit).chiSquareSet = false ∧
    (processTOFbin id 2 cexTOFfit).chiSquareVal ≠ cexTOFfit.signalChi2 := by
  refine ⟨?_, by simp [processTOFbin], by simp [processTOFbin, cexTOFfit]⟩
  norm_num [tofBinFitted, ptBinInFitRange, ptBinCenter, kPtBinsList,
    kPtRangeLo, kPtRangeHi, kCentPtLimit]

/-- C7 amended: for every fitted pt bin the raw-counts histogram records the
fitted signal-yield value as bin content and its fit error as bin error; the
chi-square histogram is written only for 0-based bin index above 8, and then
with the sideband background fit chi-square per NDF, not the chi-square of the
bin signal fit. -/
theorem rawCounts_and_chiSquare_recording (sq : ℚ → ℚ) (iB : ℕ) (f : TOFBinFit) :
    (processTOFbin sq iB f).rawCountsVal = f.sigCountsVal ∧
    (processTOFbin sq iB f).rawCountsErr = f.sigCountsErr ∧
    (processTOFbin sq iB f).chiSquareSet = decide (8 < iB) ∧
    (processTOFbin sq iB f).chiSquareVal = (if 8 < iB then f.bkgChi2 else 0) := by
  refine ⟨rfl, rfl, rfl, rfl⟩

/-- C6: for every pt bin with efficiency at least 0.01 the normalized spectrum
content equals the raw yield divided by the efficiency, then scaled by 1/norm
and divided by the bin width (both in the stat and in the syst histogram); for
every pt bin with efficiency below 0.01 all bin contents and bin errors are
zero. -/
theorem spectrum_normalization (yield statError eff systRel norm binW : ℚ) :
    (1/100 ≤ eff →
      (normalizeSpectrumBin yield statError eff systRel norm binW).statVal
          = yield / eff * (1 / norm) / binW ∧
      (normalizeSpectrumBin yield statError eff systRel norm binW).systVal
          = yield / eff * (1 / norm) / binW) ∧
    (eff < 1/100 →
      (normalizeSpectrumBin yield statError eff systRel norm binW).statVal = 0 ∧
      (normalizeSpectrumBin yield statError eff systRel norm binW).statErr = 0 ∧
      (normalizeSpectrumBin yield statError eff systRel norm binW).systVal = 0 ∧
      (normalizeSpectrumBin yield statError eff systRel norm binW).systErr = 0) := by
  constructor
  · intro h
    simp only [normalizeSpectrumBin]
    split
    · exact ⟨rfl, rfl⟩
    · next hc => exact absurd h hc
  · intro h
    simp only [normalizeSpectrumBin]
    split
    · next hc => exact absurd hc (not_le.mpr h)
    · refine ⟨?_, ?_, ?_, ?_⟩ <;> simp

/-- Witness for spectrum_normalization: the positive-efficiency branch at
eff = 1/2 and the low-efficiency branch at eff = 1/1000. -/
theorem spectrum_normalization_witness :
    ((normalizeSpectrumBin 6 1 (1/2) 1 3 2).statVal = 6 / (1/2) * (1 / 3) / 2 ∧
     (normalizeSpectrumBin 6 1 (1/2) 1 3 2).systVal = 6 / (1/2) * (1 / 3) / 2) ∧
    ((normalizeSpectrumBin 6 1 (1/1000) 1 3 2).statVal = 0 ∧
     (normalizeSpectrumBin 6 1 (1/1000) 1 3 2).statErr = 0 ∧
     (normalizeSpectrumBin 6 1 (1/1000) 1 3 2).systVal = 0 ∧
     (normalizeSpectrumBin 6 1 (1/1000) 1 3 2).systErr = 0) :=
  ⟨(spectrum_normalization 6 1 (1/2) 1 3 2).1 (by norm_num),
   (spectrum_normalization 6 1 (1/1000) 1 3 2).2 (by norm_num)⟩

/-- C10: a trigger-efficiency bin whose skimmed content is not strictly
positive keeps its reset values (content 0, error 0); otherwise the content is
sampled/skimmed and the error the square root of a clamped non-negative value;
in the positive branch the divisor is nonzero, and the square-root argument is
never negative. -/
theorem triggerEfficiency_safe (sq : ℚ → ℚ) (skimmed sampled errSkimmed errSampled : ℚ) :
    (skimmed ≤ 0 → triggerEffBin sq skimmed sampled errSkimmed errSampled = (0, 0)) ∧
    (0 < skimmed →
      (triggerEffBin sq skimmed sampled errSkimmed errSampled).1 = sampled / skimmed ∧
      (triggerEffBin sq skimmed sampled errSkimmed errSampled).2
          = sq (triggerEffErrArg skimmed sampled errSkimmed errSampled) ∧
      skimmed * skimmed ≠ 0) ∧
    0 ≤ triggerEffErrArg skimmed sampled errSkimmed errSampled := by
  refine ⟨fun h => ?_, fun h => ?_, le_max_left 0 _⟩
  · have hnot : ¬ 0 < skimmed := not_lt.mpr h
    simp [triggerEffBin, hnot]
  · exact ⟨by simp [triggerEffBin, h], by simp [triggerEffBin, h],
      mul_ne_zero (ne_of_gt h) (ne_of_gt h)⟩

/-- Witness for triggerEfficiency_safe at skimmed = 4, sampled = 8, both errors
1, with sq the identity. -/
theorem triggerEfficiency_safe_witness :
    (triggerEffBin id 4 8 1 1).1 = 8 / 4 ∧
    (triggerEffBin id 4 8 1 1).2 = id (triggerEffErrArg 4 8 1 1) ∧
    (4 : ℚ) * 4 ≠ 0 :=
  ((triggerEfficiency_safe id 4 8 1 1).2.1) (by norm_num)

/-- On the kPtBins axis, FindBin maps the center of each of the six bins back
to that bin. -/
theorem ptFindBin_center : ∀ k, 1 ≤ k → k ≤ 6 → ptFindBin (ptBinCenter k) = k := by
  intro k h1 h2
  interval_cases k <;>
    norm_num [ptFindBin, ptBinCenter, kPtBinsList, List.countP_cons]

/-- C5: for each species and each pt bin, the aggregated systematic equals the
RMS (the binned standard deviation ROOT GetRMS computes) of the relative
deviations (variant yield - default yield)/default yield, accumulated over the
three TPC fit-function variants for the TPC systematic and over the two TOF
extraction variants for the TOF systematic; fills from other pt bins do not
enter the bin's projection. -/
theorem syst_rms_of_variants (sq : ℚ → ℚ) (v w : ℕ → ℕ → ℚ) (iB : ℕ)
    (h1 : 1 ≤ iB) (h2 : iB ≤ kNPtBins) :
    hSystContent sq (systTPCfills v) iB =
      rmsOfDeviations sq
        [relDev (v 0 iB) (v 1 iB), relDev (v 1 iB) (v 1 iB), relDev (v 2 iB) (v 1 iB)] ∧
    hSystContent sq (systTOFfills w) iB =
      rmsOfDeviations sq [relDev (w 0 iB) (w 0 iB), relDev (w 1 iB) (w 0 iB)] := by
  have e1 := ptFindBin_center 1 (by norm_num) (by norm_num)
  have e2 := ptFindBin_center 2 (by norm_num) (by norm_num)
  have e3 := ptFindBin_center 3 (by norm_num) (by norm_num)
  have e4 := ptFindBin_center 4 (by norm_num) (by norm_num)
  have e5 := ptFindBin_center 5 (by norm_num) (by norm_num)
  have e6 := ptFindBin_center 6 (by norm_num) (by norm_num)
  rw [kNPtBins] at h2
  have hTPC : projYcounts (systTPCfills v) iB =
      deviationCounts
        [relDev (v 0 iB) (v 1 iB), relDev (v 1 iB) (v 1 iB), relDev (v 2 iB) (v 1 iB)] := by
    funext j
    interval_cases iB <;>
      simp [projYcounts, deviationCounts, systTPCfills, systFillBins, kNPtBins,
        List.range_succ, e1, e2, e3, e4, e5, e6]
  have hTOF : projYcounts (systTOFfills w) iB =
      deviationCounts [relDev (w 0 iB) (w 0 iB), relDev (w 1 iB) (w 0 iB)] := by
    funext j
    interval_cases iB <;>
      simp [projYcounts, deviationCounts, systTOFfills, systFillBins, kNPtBins,
        List.range_succ, e1, e2, e3, e4, e5, e6]
  unfold hSystContent rmsOfDeviations
  rw [hTPC, hTOF]
  exact ⟨rfl, rfl⟩

/-- Witness for syst_rms_of_variants at iB = 2 with concrete yield tables. -/
theorem syst_rms_of_variants_witness :
    hSystContent id (systTPCfills (fun iT iB => (iT + iB : ℚ))) 2 =
      rmsOfDeviations id
        [relDev ((0 + 2 : ℚ)) ((1 + 2 : ℚ)), relDev ((1 + 2 : ℚ)) ((1 + 2 : ℚ)),
         relDev ((2 + 2 : ℚ)) ((1 + 2 : ℚ))] ∧
    hSystContent id (systTOFfills (fun iT iB => (iT + 2 * iB : ℚ))) 2 =
      rmsOfDeviations id [relDev ((0 + 2 * 2 : ℚ)) ((0 + 2 * 2 : ℚ)),
        relDev ((1 + 2 * 2 : ℚ)) ((0 + 2 * 2 : ℚ))] := by
  have h := syst_rms_of_variants id (fun iT iB => (iT + iB : ℚ))
    (fun iT iB => (iT + 2 * iB : ℚ)) 2 (by norm_num) (by norm_num [kNPtBins])
  exact_mod_cast h

end He3pp
